import Mathlib

/-!
Verification of the authenticated HTTP client core of the bluemix-go
`k8sclusterv1` package: path normalization (`cleanPath`), routing-header
projection (`addToRequestHeader`), and request dispatch (`sendRequest`).

The Go code under verification is the client core in the `k8sclusterv1`
package.  External collaborators (the `rest` client transport, the token
refresher, the hooks) are modelled as parameters; machine-level details
(JSON decoding, actual sockets) are out of scope of every claim.
-/

set_option autoImplicit false

namespace K8sClusterV1

/-! ### Path cleaning

The repository's `cleanPath` delegates to the Go standard library's
`path.Clean`.  `path.Clean` is modelled here by its documented rules over
slash-separated segments: drop empty and `.` segments, let a `..` segment
delete the preceding non-`..` segment (at the root of a rooted path a `..`
is dropped; in a relative path an unmatched `..` is kept), and rebuild the
result with single separators, yielding `.` for an empty relative result.
-/

/-- Split a character list at every slash, keeping empty pieces (two
adjacent slashes produce an empty piece, as does a leading or trailing
slash). -/
def splitSlash : List Char → List (List Char)
  | [] => [[]]
  | c :: cs =>
    if c = '/' then [] :: splitSlash cs
    else
      match splitSlash cs with
      | [] => [[c]]
      | s :: ss => (c :: s) :: ss

/-- Join segment lists with single slashes. -/
def joinSlash : List (List Char) → List Char
  | [] => []
  | [s] => s
  | s :: s2 :: ss => s ++ '/' :: joinSlash (s2 :: ss)

/-- Process one segment of Go `path.Clean`'s scan.  The stack holds the
already-emitted segments, most recent first.  Empty and `.` segments are
dropped; a `..` segment pops the previous segment, except that in a rooted
path it is dropped at the root and in a relative path it is kept when
there is nothing left to pop (or only other `..` segments). -/
def cleanStep (rooted : Bool) (stack : List (List Char)) (seg : List Char) :
    List (List Char) :=
  if seg = [] then stack
  else if seg = ['.'] then stack
  else if seg = ['.', '.'] then
    match stack with
    | [] => if rooted then [] else [['.', '.']]
    | top :: rest => if top = ['.', '.'] then ['.', '.'] :: top :: rest else rest
  else seg :: stack

/-- Go standard library `path.Clean` on a character list: `.` for the
empty path, otherwise segment-wise cleaning, with a leading slash
preserved for rooted paths and `.` substituted for an empty relative
result. -/
def pathCleanList (l : List Char) : List Char :=
  match l with
  | [] => ['.']
  | c :: cs =>
    if c = '/' then
      '/' :: joinSlash (((splitSlash (c :: cs)).foldl (cleanStep true) []).reverse)
    else
      let body := joinSlash (((splitSlash (c :: cs)).foldl (cleanStep false) []).reverse)
      if body = [] then ['.'] else body

/-- The repository's `cleanPath` on a character list: empty input yields
`/`, a missing leading slash is prepended, then Go `path.Clean` runs. -/
def cleanPathList (l : List Char) : List Char :=
  match l with
  | [] => ['/']
  | c :: cs =>
    if c = '/' then pathCleanList (c :: cs)
    else pathCleanList ('/' :: c :: cs)

/-- `cleanPath` from the source:
empty path maps to `/`; a path without a leading slash gets one
prepended; the result is passed through `path.Clean`. -/
def cleanPath (p : String) : String :=
  ⟨cleanPathList p.toList⟩

/-! ### Routing headers -/

/-- Header name constant from the source. -/
def orgIDHeader : String := "X-Auth-Resource-Org"

/-- Header name constant from the source. -/
def spaceIDHeader : String := "X-Auth-Resource-Space"

/-- Header name constant from the source. -/
def accountIDHeader : String := "X-Auth-Resource-Account"

/-- Header name constant from the source. -/
def slUserNameHeader : String := "X-Auth-Softlayer-Username"

/-- Header name constant from the source. -/
def slAPIKeyHeader : String := "X-Auth-Softlayer-APIKey"

/-- `ClusterTargetHeader` from `clusters.go`. -/
structure ClusterTargetHeader where
  OrgID : String
  SpaceID : String
  AccountID : String
deriving DecidableEq, Repr

/-- `ClusterSoftlayerHeader` from `clusters.go`. -/
structure ClusterSoftlayerHeader where
  SoftLayerUsername : String
  SoftLayerAPIKey : String
deriving DecidableEq, Repr

/-- The dynamic (`interface\x7b\x7d`) argument of `addToRequestHeader`.
Go's type switch distinguishes pointer types from value types, so the
embedding keeps pointer-typed and value-typed variants apart; `other`
stands for every further dynamic type. -/
inductive HeaderArg where
  | targetPtr (v : ClusterTargetHeader)
  | softlayerPtr (v : ClusterSoftlayerHeader)
  | targetVal (v : ClusterTargetHeader)
  | softlayerVal (v : ClusterSoftlayerHeader)
  | other
deriving DecidableEq

/-- The mutable header set of a `rest.Request`, as an association list in
insertion order. -/
structure Request where
  headers : List (String × String)
deriving DecidableEq

/-- Drop every entry stored under a key. -/
def removeKey : List (String × String) → String → List (String × String)
  | [], _ => []
  | (k1, v) :: t, k =>
    if k1 = k then removeKey t k else (k1, v) :: removeKey t k

/-- `rest.Request.Set` / `http.Header.Set` semantics: replace every
existing value of the key with the single new value. -/
def Request.set (r : Request) (k v : String) : Request :=
  ⟨removeKey r.headers k ++ [(k, v)]⟩

/-- First value stored under a key. -/
def lookupHeader : List (String × String) → String → Option String
  | [], _ => none
  | (k1, v) :: t, k => if k1 = k then some v else lookupHeader t k

/-- Header lookup on a request. -/
def Request.getHeader (r : Request) (k : String) : Option String :=
  lookupHeader r.headers k

/-- `addToRequestHeader` from the source: a type switch recognizing only
the two pointer types, silently ignoring everything else. -/
def addToRequestHeader (h : HeaderArg) (r : Request) : Request :=
  match h with
  | .targetPtr v =>
    ((r.set orgIDHeader v.OrgID).set spaceIDHeader v.SpaceID).set
      accountIDHeader v.AccountID
  | .softlayerPtr v =>
    (r.set slUserNameHeader v.SoftLayerUsername).set slAPIKeyHeader
      v.SoftLayerAPIKey
  | _ => r

/-- Whether the type switch in `addToRequestHeader` recognizes the
argument. -/
def recognizedHeader : HeaderArg → Bool
  | .targetPtr _ => true
  | .softlayerPtr _ => true
  | _ => false

/-- The header-attaching loop shared by the `get`/`put`/`post`/`patch`/
`delete` primitives: fold `addToRequestHeader` over the variadic
arguments. -/
def addHeaders (ts : List HeaderArg) (r : Request) : Request :=
  ts.foldl (fun acc t => addToRequestHeader t acc) r

/-! ### Lemmas on path cleaning -/

/-- Splitting never yields the empty list of pieces. -/
theorem splitSlash_ne_nil (cs : List Char) : splitSlash cs ≠ [] := by
  induction cs with
  | nil => simp [splitSlash]
  | cons c cs ih =>
    by_cases h : c = '/'
    · simp [splitSlash, h]
    · simp only [splitSlash, if_neg h]
      cases hs : splitSlash cs with
      | nil => simp
      | cons s ss => simp

/-- Splitting a slash-headed list peels off one empty piece. -/
theorem splitSlash_slash_cons (cs : List Char) :
    splitSlash ('/' :: cs) = [] :: splitSlash cs := by
  simp [splitSlash]

/-- No piece produced by splitting contains a slash. -/
theorem not_slash_mem_splitSlash (cs : List Char) :
    ∀ s ∈ splitSlash cs, '/' ∉ s := by
  induction cs with
  | nil =>
    intro s hs
    simp [splitSlash] at hs
    subst hs; simp
  | cons c cs ih =>
    intro s hs
    by_cases h : c = '/'
    · subst h
      rw [splitSlash_slash_cons] at hs
      rcases List.mem_cons.mp hs with h1 | h1
      · subst h1; simp
      · exact ih s h1
    · rcases hsp : splitSlash cs with _ | ⟨t, ts⟩
      · exact absurd hsp (splitSlash_ne_nil cs)
      · rw [show splitSlash (c :: cs) = (c :: t) :: ts by
          simp [splitSlash, h, hsp]] at hs
        rcases List.mem_cons.mp hs with h1 | h1
        · subst h1
          intro hmem
          rcases List.mem_cons.mp hmem with h2 | h2
          · exact h h2.symm
          · exact ih t (by rw [hsp]; exact List.mem_cons_self _ _) h2
        · exact ih s (by rw [hsp]; exact List.mem_cons_of_mem _ h1)

/-- Splitting after a slash-free chunk rewrites only the first piece. -/
theorem splitSlash_append (p : List Char) (hp : '/' ∉ p) (cs : List Char) :
    splitSlash (p ++ cs) = (splitSlash cs).modifyHead (p ++ ·) := by
  induction p with
  | nil =>
    cases h : splitSlash cs with
    | nil => simp [h]
    | cons s ss => simp [h]
  | cons c p ih =>
    have hc : c ≠ '/' := fun h => hp (h ▸ List.mem_cons_self c p)
    have hp1 : '/' ∉ p := fun h => hp (List.mem_cons_of_mem _ h)
    rcases hsp : splitSlash cs with _ | ⟨t, ts⟩
    · exact absurd hsp (splitSlash_ne_nil cs)
    · have h1 : splitSlash (p ++ cs) = (p ++ t) :: ts := by
        rw [ih hp1, hsp]; simp
      show splitSlash (c :: (p ++ cs)) = _
      rw [show splitSlash (c :: (p ++ cs)) = (c :: (p ++ t)) :: ts by
        simp [splitSlash, hc, h1]]
      simp

/-- Splitting inverts joining for nonempty, slash-free pieces. -/
theorem splitSlash_joinSlash (ps : List (List Char)) (h0 : ps ≠ [])
    (h1 : ∀ s ∈ ps, '/' ∉ s) : splitSlash (joinSlash ps) = ps := by
  induction ps with
  | nil => exact absurd rfl h0
  | cons p ps ih =>
    cases ps with
    | nil =>
      simpa [joinSlash, splitSlash] using
        splitSlash_append p (h1 p (List.mem_cons_self _ _)) []
    | cons q qs =>
      have hj : joinSlash (p :: q :: qs) = p ++ '/' :: joinSlash (q :: qs) := by
        simp [joinSlash]
      rw [hj, splitSlash_append p (h1 p (List.mem_cons_self _ _)),
          splitSlash_slash_cons,
          ih (by simp) (fun s hs => h1 s (List.mem_cons_of_mem _ hs))]
      simp

/-- A segment the cleaning scan may emit: nonempty, not a dot or
dot-dot marker, slash-free. -/
def goodSeg (s : List Char) : Prop :=
  s ≠ [] ∧ s ≠ ['.'] ∧ s ≠ ['.', '.'] ∧ '/' ∉ s

/-- A good segment is pushed unconditionally. -/
theorem cleanStep_push (st : List (List Char)) (s : List Char)
    (h : goodSeg s) : cleanStep true st s = s :: st := by
  obtain ⟨h1, h2, h3, _⟩ := h
  simp [cleanStep, h1, h2, h3]

/-- On a rooted path the scan keeps every stack entry good, provided the
incoming segments are slash-free. -/
theorem foldl_cleanStep_good (segs : List (List Char))
    (hseg : ∀ s ∈ segs, '/' ∉ s) :
    ∀ st, (∀ t ∈ st, goodSeg t) →
      ∀ t ∈ segs.foldl (cleanStep true) st, goodSeg t := by
  induction segs with
  | nil => intro st hst t ht; exact hst t ht
  | cons s segs ih =>
    intro st hst t ht
    have hs : '/' ∉ s := hseg s (List.mem_cons_self _ _)
    have hseg1 : ∀ x ∈ segs, '/' ∉ x := fun x hx =>
      hseg x (List.mem_cons_of_mem _ hx)
    refine ih hseg1 (cleanStep true st s) ?_ t ht
    intro u hu
    by_cases h1 : s = []
    · rw [show cleanStep true st s = st by simp [cleanStep, h1]] at hu
      exact hst u hu
    by_cases h2 : s = ['.']
    · rw [show cleanStep true st s = st by simp [cleanStep, h2]] at hu
      exact hst u hu
    by_cases h3 : s = ['.', '.']
    · rcases hstc : st with _ | ⟨top, rest⟩
      · rw [show cleanStep true st s = [] by
          simp [cleanStep, h1, h2, h3, hstc]] at hu
        exact absurd hu (List.not_mem_nil u)
      · have htop : goodSeg top := hst top (hstc ▸ List.mem_cons_self _ _)
        rw [show cleanStep true st s = rest by
          simp [cleanStep, h1, h2, h3, hstc, htop.2.2.1]] at hu
        exact hst u (hstc ▸ List.mem_cons_of_mem _ hu)
    · rw [cleanStep_push st s ⟨h1, h2, h3, hs⟩] at hu
      rcases List.mem_cons.mp hu with h4 | h4
      · exact h4 ▸ ⟨h1, h2, h3, hs⟩
      · exact hst u h4

/-- On good segments the scan is a pure push, so it reverses the input
onto the stack. -/
theorem foldl_cleanStep_push (segs : List (List Char))
    (h : ∀ s ∈ segs, goodSeg s) :
    ∀ st, segs.foldl (cleanStep true) st = segs.reverse ++ st := by
  induction segs with
  | nil => intro st; simp
  | cons s segs ih =>
    intro st
    rw [List.foldl_cons, cleanStep_push st s (h s (List.mem_cons_self _ _)),
        ih (fun x hx => h x (List.mem_cons_of_mem _ hx))]
    simp

/-- Cleaning a rooted path: a leading slash followed by the scanned
segments in order. -/
theorem pathCleanList_rooted (cs : List Char) :
    pathCleanList ('/' :: cs) =
      '/' :: joinSlash (((splitSlash cs).foldl (cleanStep true) []).reverse) := by
  rw [show pathCleanList ('/' :: cs) =
        '/' :: joinSlash
          (((splitSlash ('/' :: cs)).foldl (cleanStep true) []).reverse) by
      simp [pathCleanList]]
  rw [splitSlash_slash_cons, List.foldl_cons]
  simp [cleanStep]

/-- Cleaning a rooted path is idempotent. -/
theorem pathCleanList_rooted_idem (cs : List Char) :
    pathCleanList (pathCleanList ('/' :: cs)) = pathCleanList ('/' :: cs) := by
  have hgood : ∀ t ∈ (splitSlash cs).foldl (cleanStep true) [], goodSeg t :=
    foldl_cleanStep_good (splitSlash cs) (not_slash_mem_splitSlash cs) []
      (by intro t ht; exact absurd ht (List.not_mem_nil t))
  rw [pathCleanList_rooted cs]
  rcases hrev : ((splitSlash cs).foldl (cleanStep true) []).reverse
      with _ | ⟨a, l⟩
  · rw [show joinSlash [] = [] from rfl]; decide
  · have hgood2 : ∀ t ∈ a :: l, goodSeg t := by
      intro t ht
      exact hgood t (List.mem_reverse.mp (hrev ▸ ht))
    rw [pathCleanList_rooted,
        splitSlash_joinSlash (a :: l) (by simp)
          (fun s hs => (hgood2 s hs).2.2.2),
        foldl_cleanStep_push (a :: l) hgood2, List.append_nil,
        List.reverse_reverse]

/-- The repository's cleaning always produces a slash-rooted clean of a
rooted path. -/
theorem cleanPathList_eq_rooted (l : List Char) :
    ∃ cs, cleanPathList l = pathCleanList ('/' :: cs) := by
  cases l with
  | nil => exact ⟨[], by decide⟩
  | cons c cs =>
    by_cases h : c = '/'
    · subst h; exact ⟨cs, by simp [cleanPathList]⟩
    · exact ⟨c :: cs, by simp [cleanPathList, h]⟩

/-- The repository's cleaning is idempotent at the character-list level. -/
theorem cleanPathList_idem (l : List Char) :
    cleanPathList (cleanPathList l) = cleanPathList l := by
  obtain ⟨cs, hcs⟩ := cleanPathList_eq_rooted l
  have ht := pathCleanList_rooted cs
  set t := joinSlash (((splitSlash cs).foldl (cleanStep true) []).reverse)
    with hts
  rw [hcs, ht]
  calc cleanPathList ('/' :: t) = pathCleanList ('/' :: t) := by
        simp [cleanPathList]
    _ = pathCleanList (pathCleanList ('/' :: cs)) := by rw [ht]
    _ = pathCleanList ('/' :: cs) := pathCleanList_rooted_idem cs
    _ = '/' :: t := ht

/-! ### The dispatch core `sendRequest`

External collaborators are parameters: the transport (`rest.Client.Do`,
an external SDK) is a function from the call index to its outcome, the
token refresher is the outcome of its single possible invocation, and the
two hooks are optional functions.  The outcome records, besides the
response and error the caller receives, the default-header set used for
each HTTP call actually executed (so retries and header rebuilding are
observable) and the number of `RefreshToken` invocations.
-/

/-- The observable part of a `gohttp.Response`: the status code and the
request host reachable through `resp.Request.URL.Host`. -/
structure GoResponse where
  statusCode : Nat
  host : String
deriving DecidableEq, Repr

/-- Go error values that `sendRequest` distinguishes:
`requestFailure` models a `bmxerror.RequestFailure` (code, description,
status); `invalidTokenErr` the dedicated invalid-token type;
`netErr` a transport-level (network) failure such as a connection, DNS
or timeout error; `networkWrapped` a network failure wrapped with the
target host; `errorf` every other error, by its message. -/
inductive GoErr where
  | requestFailure (code : String) (desc : String) (status : Nat)
  | invalidTokenErr (desc : String)
  | netErr (msg : String)
  | networkWrapped (host : String) (inner : GoErr)
  | errorf (msg : String)
deriving DecidableEq, Repr

/-- Whether an error value is the wrapped network-error kind. -/
def GoErr.isNetworkWrapped : GoErr → Bool
  | .networkWrapped _ _ => true
  | _ => false

/-- One transport call's outcome: the possibly-missing response object
and the possibly-missing error, as returned by `rest.Client.Do`. -/
structure DoResult where
  resp : Option GoResponse
  err : Option GoErr
deriving DecidableEq

/-- Outcome of the (at most one) `RefreshToken` invocation: a new token,
a typed invalid-token failure, or any other failure. -/
inductive RefreshOutcome where
  | ok (token : String)
  | invalidTok (msg : String)
  | failed (msg : String)
deriving DecidableEq

/-- The synthesized `new(gohttp.Response)`: zero status, empty host. -/
def zeroResponse : GoResponse := ⟨0, ""⟩

/-- What a `sendRequest` call yields: the response reference (`none`
models a Go nil pointer), the error, the default headers used by each
executed HTTP call in order, and the number of refresher invocations. -/
structure SendOutcome where
  resp : Option GoResponse
  err : Option GoErr
  headersSent : List (List (String × String))
  refreshCalls : Nat
deriving DecidableEq

/-- Modelled from the spec: `http.DefaultClusterAuthHeader` lives in the
repository's `http` package, which is not under `src/`; the spec says the
default headers are the bearer token plus standard identification
headers, and that headers rebuilt after a successful refresh reflect the
new token.  The model keeps exactly the token-bearing header. -/
def DefaultClusterAuthHeader (token : String) : List (String × String) :=
  [("Authorization", token)]

/-- Modelled from the spec: `bmxerror.WrapNetworkErrors` lives in the
repository's `bmxerror` package, which is not under `src/`; the spec says
a transport-level failure (connection, DNS, timeout) is wrapped with the
target host context, while a structured failure is returned as-is with
status and description intact.  The model therefore wraps exactly the
network-level error kind and returns every other error unchanged. -/
def WrapNetworkErrors (host : String) (e : GoErr) : GoErr :=
  match e with
  | .netErr msg => .networkWrapped host (.netErr msg)
  | e => e

/-- Run the registered before-send hook, if any, on the request. -/
def runBefore (before : Option (Request → Option GoErr)) (r : Request) :
    Option GoErr :=
  match before with
  | some f => f r
  | none => none

/-- The error-translation step at the end of `sendRequest`: when the
error is a `bmxerror.RequestFailure` and an `OnError` hook is registered,
the hook's result (itself possibly nil) replaces the error. -/
def applyOnError (onError : Option (Nat → String → Option GoErr))
    (e : Option GoErr) : Option GoErr :=
  match e, onError with
  | some (.requestFailure _ desc status), some f => f status desc
  | _, _ => e

/-- `sendRequest` from the source, with the transport scripted by call
index.  Mirrors the Go control flow: run the before hook (abort with the
synthesized zero response on failure), execute the request, synthesize a
zero response when the transport returned none, wrap a first-attempt
error with the host, then on a 401 with a configured refresher either
retry once with rebuilt headers, or return the typed invalid-token
failure, or return the refresh-failed error; finally run the error hook. -/
def sendRequest (cfgToken : String) (refresher : Option RefreshOutcome)
    (before : Option (Request → Option GoErr))
    (onError : Option (Nat → String → Option GoErr))
    (transport : Nat → DoResult) (r : Request) : SendOutcome :=
  let dh := DefaultClusterAuthHeader cfgToken
  match runBefore before r with
  | some e => ⟨some zeroResponse, some e, [], 0⟩
  | none =>
    let d0 := transport 0
    match d0.resp with
    | none => ⟨some zeroResponse, d0.err, [dh], 0⟩
    | some resp0 =>
      let e1 := match d0.err with
        | some e => some (WrapNetworkErrors resp0.host e)
        | none => none
      if resp0.statusCode = 401 then
        match refresher with
        | some (.ok newTok) =>
          let d1 := transport 1
          ⟨d1.resp, applyOnError onError d1.err,
           [dh, DefaultClusterAuthHeader newTok], 1⟩
        | some (.invalidTok msg) =>
          ⟨some resp0, some (.requestFailure "InvalidToken" msg 401), [dh], 1⟩
        | some (.failed msg) =>
          ⟨some resp0,
           some (.errorf ("Authentication failed, Unable to refresh auth token: "
             ++ msg ++ ". Try again later")), [dh], 1⟩
        | none => ⟨some resp0, applyOnError onError e1, [dh], 0⟩
      else ⟨some resp0, applyOnError onError e1, [dh], 0⟩

/-! ### Header-lookup lemmas -/

/-- Removing a key other than the looked-up one does not change the
lookup. -/
theorem lookupHeader_removeKey_ne (k k1 : String) (h : k ≠ k1)
    (hs : List (String × String)) :
    lookupHeader (removeKey hs k1) k = lookupHeader hs k := by
  induction hs with
  | nil => rfl
  | cons a t ih =>
    obtain ⟨a1, a2⟩ := a
    by_cases h1 : a1 = k1
    · have h2 : ¬ a1 = k := fun hh => h (h1 ▸ hh ▸ rfl)
      simp [removeKey, lookupHeader, h1, h2, ih, Ne.symm h]
    · simp [removeKey, lookupHeader, h1, ih]

/-- Appending an entry under a different key does not change the lookup. -/
theorem lookupHeader_append_single_ne (k k1 v : String) (h : k ≠ k1)
    (hs : List (String × String)) :
    lookupHeader (hs ++ [(k1, v)]) k = lookupHeader hs k := by
  induction hs with
  | nil => simp [lookupHeader, Ne.symm h]
  | cons a t ih =>
    obtain ⟨a1, a2⟩ := a
    simp [lookupHeader, ih]

/-- Setting one header leaves every other header's value unchanged. -/
theorem getHeader_set_ne (r : Request) (k k1 v : String) (h : k ≠ k1) :
    (r.set k1 v).getHeader k = r.getHeader k := by
  show lookupHeader (removeKey r.headers k1 ++ [(k1, v)]) k =
    lookupHeader r.headers k
  rw [lookupHeader_append_single_ne k k1 v h,
      lookupHeader_removeKey_ne k k1 h]

/-! ### The claims -/

/-- C1: for a request whose first response has status 401 and whose
configured refresher succeeds, `sendRequest` invokes `RefreshToken`
exactly once, rebuilds the default headers with the new token, re-executes
the request exactly once (two HTTP calls in total, no further retry
whatever the second attempt returns), and hands back the second attempt's
response; in particular when the second attempt carries no error, no error
is returned. -/
theorem sendRequest_refresh_retry_once (cfgToken newTok : String)
    (before : Option (Request → Option GoErr))
    (onError : Option (Nat → String → Option GoErr))
    (transport : Nat → DoResult) (r : Request) (resp0 : GoResponse)
    (hb : runBefore before r = none)
    (h0 : (transport 0).resp = some resp0)
    (h401 : resp0.statusCode = 401) :
    sendRequest cfgToken (some (.ok newTok)) before onError transport r =
      ⟨(transport 1).resp, applyOnError onError (transport 1).err,
       [DefaultClusterAuthHeader cfgToken, DefaultClusterAuthHeader newTok],
       1⟩ ∧
    ((transport 1).err = none →
      (sendRequest cfgToken (some (.ok newTok)) before onError
          transport r).err = none) := by
  constructor
  · simp [sendRequest, hb, h0, h401]
  · intro h1
    simp [sendRequest, hb, h0, h401, h1, applyOnError]

/-- Transport script for the C1 witness: 401 on the first call, 200 on
the retried call. -/
def demoTransport401Then200 : Nat → DoResult := fun n =>
  if n = 0 then ⟨some ⟨401, "h1"⟩, some (.requestFailure "E" "unauthorized" 401)⟩
  else ⟨some ⟨200, "h1"⟩, none⟩

/-- Witness for C1 at a concrete transport returning 401 then 200. -/
theorem sendRequest_refresh_retry_once_witness :
    sendRequest "tok1" (some (.ok "tok2")) none none demoTransport401Then200
        ⟨[]⟩ =
      ⟨some ⟨200, "h1"⟩, none,
       [DefaultClusterAuthHeader "tok1", DefaultClusterAuthHeader "tok2"],
       1⟩ :=
  ((sendRequest_refresh_retry_once "tok1" "tok2" none none
    demoTransport401Then200 ⟨[]⟩ ⟨401, "h1"⟩ rfl rfl rfl).1).trans rfl

/-- C2: for a request whose first response has status 401 and whose
configured refresher reports the typed invalid-token failure,
`sendRequest` returns the 401 response together with a structured
request-failure error of code InvalidToken and status 401, after exactly
one HTTP call (no resend) and one refresher invocation. -/
theorem sendRequest_invalid_token (cfgToken msg : String)
    (before : Option (Request → Option GoErr))
    (onError : Option (Nat → String → Option GoErr))
    (transport : Nat → DoResult) (r : Request) (resp0 : GoResponse)
    (hb : runBefore before r = none)
    (h0 : (transport 0).resp = some resp0)
    (h401 : resp0.statusCode = 401) :
    sendRequest cfgToken (some (.invalidTok msg)) before onError transport r =
      ⟨some resp0, some (.requestFailure "InvalidToken" msg 401),
       [DefaultClusterAuthHeader cfgToken], 1⟩ := by
  simp [sendRequest, hb, h0, h401]

/-- Transport script returning 401 on every call. -/
def demoTransportAlways401 : Nat → DoResult := fun _ =>
  ⟨some ⟨401, "h1"⟩, some (.requestFailure "E" "unauthorized" 401)⟩

/-- Witness for C2 at a concrete always-401 transport. -/
theorem sendRequest_invalid_token_witness :
    sendRequest "tok1" (some (.invalidTok "token is expired")) none none
        demoTransportAlways401 ⟨[]⟩ =
      ⟨some ⟨401, "h1"⟩,
       some (.requestFailure "InvalidToken" "token is expired" 401),
       [DefaultClusterAuthHeader "tok1"], 1⟩ :=
  sendRequest_invalid_token "tok1" "token is expired" none none
    demoTransportAlways401 ⟨[]⟩ ⟨401, "h1"⟩ rfl rfl rfl

/-- C3 (refuting evaluation): the never-nil guarantee fails on the
refresh retry.  With a 401 first response, a successful refresh, and a
retried call for which the transport returns no response object,
`sendRequest` hands back a nil response reference, contradicting the
source's own comment that the returned response is always non-nil. -/
theorem sendRequest_nil_response_on_retry :
    (sendRequest "tok1" (some (.ok "tok2")) none none
      (fun n => if n = 0 then ⟨some ⟨401, "h1"⟩, none⟩
                else ⟨none, some (.errorf "timeout")⟩) ⟨[]⟩).resp = none :=
  rfl

/-- C4 (counterexample): with a transport that reports a network-level
failure without a response object, `sendRequest` surfaces the raw
transport error, not the wrapped network-error kind, refuting the claim
that the wrapped kind is always returned. -/
theorem sendRequest_raw_network_error :
    (sendRequest "tok1" none none none
        (fun _ => ⟨none, some (.netErr "dial tcp: connection refused")⟩)
        ⟨[]⟩).err
      = some (.netErr "dial tcp: connection refused") ∧
    (GoErr.netErr "dial tcp: connection refused").isNetworkWrapped = false :=
  ⟨rfl, rfl⟩

/-- C4 (amended): the host-carrying network wrap applies exactly to a
first attempt that yields a response object together with a
network-level error and does not enter the refresh retry; a first
attempt's structured failure is instead passed, as-is, to the optional
error-translation hook; when the transport returns no response object
the raw error is surfaced beside the synthesized zero response, and on
the retried attempt the second call's error is never wrapped (only
hook-translated when it is a structured request failure). -/
theorem sendRequest_wrap_behavior (cfgToken newTok : String)
    (refresher : Option RefreshOutcome)
    (before : Option (Request → Option GoErr))
    (onError : Option (Nat → String → Option GoErr))
    (transport : Nat → DoResult) (r : Request)
    (hb : runBefore before r = none) :
    ((transport 0).resp = none →
      sendRequest cfgToken refresher before onError transport r =
        ⟨some zeroResponse, (transport 0).err,
         [DefaultClusterAuthHeader cfgToken], 0⟩) ∧
    (∀ resp0 msg, (transport 0).resp = some resp0 →
      (transport 0).err = some (.netErr msg) → resp0.statusCode ≠ 401 →
      (sendRequest cfgToken refresher before onError transport r).err =
        some (.networkWrapped resp0.host (.netErr msg))) ∧
    (∀ resp0 code desc status, (transport 0).resp = some resp0 →
      (transport 0).err = some (.requestFailure code desc status) →
      resp0.statusCode ≠ 401 →
      (sendRequest cfgToken refresher before onError transport r).err =
        applyOnError onError (some (.requestFailure code desc status))) ∧
    (∀ resp0, (transport 0).resp = some resp0 → resp0.statusCode = 401 →
      refresher = some (.ok newTok) →
      (sendRequest cfgToken refresher before onError transport r).err =
        applyOnError onError (transport 1).err) := by
  refine ⟨?_, ?_, ?_, ?_⟩
  · intro h0
    simp [sendRequest, hb, h0]
  · intro resp0 msg h0 he hne
    cases onError <;>
      simp [sendRequest, hb, h0, he, hne, applyOnError, WrapNetworkErrors]
  · intro resp0 code desc status h0 he hne
    simp [sendRequest, hb, h0, he, hne, WrapNetworkErrors]
  · intro resp0 h0 h401 hr
    simp [sendRequest, hb, h0, h401, hr]

/-- Witness for C4 (amended), first-attempt wrap conjunct, at a concrete
transport returning a 500 response together with a network-level error. -/
theorem sendRequest_wrap_behavior_witness :
    (sendRequest "tok1" none none none
        (fun _ => ⟨some ⟨500, "api.example.com"⟩, some (.netErr "reset")⟩)
        ⟨[]⟩).err =
      some (.networkWrapped "api.example.com" (.netErr "reset")) :=
  (sendRequest_wrap_behavior "tok1" "" none none none
      (fun _ => ⟨some ⟨500, "api.example.com"⟩, some (.netErr "reset")⟩)
      ⟨[]⟩ rfl).2.1 ⟨500, "api.example.com"⟩ "reset" rfl rfl (by decide)

/-- C5: when the registered before-send hook fails, `sendRequest` makes
no HTTP call, performs no refresh, and returns the synthesized zero-value
response together with the hook's error. -/
theorem sendRequest_before_hook_aborts (cfgToken : String)
    (refresher : Option RefreshOutcome)
    (onError : Option (Nat → String → Option GoErr))
    (transport : Nat → DoResult) (r : Request)
    (f : Request → Option GoErr) (e : GoErr)
    (hf : f r = some e) :
    sendRequest cfgToken refresher (some f) onError transport r =
      ⟨some zeroResponse, some e, [], 0⟩ := by
  simp [sendRequest, runBefore, hf]

/-- Witness for C5 at a concrete failing hook. -/
theorem sendRequest_before_hook_aborts_witness :
    sendRequest "tok1" none (some fun _ => some (.errorf "hook failed")) none
        demoTransportAlways401 ⟨[]⟩ =
      ⟨some zeroResponse, some (.errorf "hook failed"), [], 0⟩ :=
  sendRequest_before_hook_aborts "tok1" none none demoTransportAlways401
    ⟨[]⟩ (fun _ => some (.errorf "hook failed")) (.errorf "hook failed") rfl

/-- C6: `cleanPath` yields `/` on the empty path, computes the clean of
the slash-prepended input whenever the input lacks a leading slash, always
produces a slash-rooted result, and collapses dot, dot-dot and redundant
separators, in particular on `/v1/../v1/clusters`. -/
theorem cleanPath_spec :
    cleanPath "" = "/" ∧
    (∀ p : String, p.toList.head? ≠ some '/' →
      cleanPath p = String.mk (pathCleanList ('/' :: p.toList))) ∧
    (∀ p : String, (cleanPath p).toList.head? = some '/') ∧
    cleanPath "/v1/../v1/clusters" = "/v1/clusters" ∧
    cleanPath "//a//./b/.." = "/a" := by
  refine ⟨rfl, ?_, ?_, by decide, by decide⟩
  · intro p hp
    show String.mk (cleanPathList p.toList) = _
    rcases hl : p.toList with _ | ⟨c, cs⟩
    · decide
    · have hc : ¬ c = '/' := fun h => hp (by rw [hl, h]; rfl)
      simp [cleanPathList, hc]
  · intro p
    show (String.mk (cleanPathList p.toList)).toList.head? = some '/'
    obtain ⟨cs, hcs⟩ := cleanPathList_eq_rooted p.toList
    rw [hcs, pathCleanList_rooted]
    rfl

/-- Witness for C6 at a concrete path lacking a leading slash. -/
theorem cleanPath_spec_witness :
    ("v1/x" : String).toList.head? ≠ some '/' ∧
      cleanPath "v1/x" = String.mk (pathCleanList ('/' :: "v1/x".toList)) :=
  ⟨by decide, cleanPath_spec.2.1 "v1/x" (by decide)⟩

/-- C7: projecting the tenant header with orgID o1, spaceID s1 and
accountID a1 onto the empty request yields exactly the three
X-Auth-Resource headers with those literal values, and on any request it
changes no header outside those three names. -/
theorem addToRequestHeader_tenant_exact :
    addToRequestHeader (.targetPtr ⟨"o1", "s1", "a1"⟩) ⟨[]⟩ =
      ⟨[(orgIDHeader, "o1"), (spaceIDHeader, "s1"),
        (accountIDHeader, "a1")]⟩ ∧
    (∀ (r : Request) (k : String), k ≠ orgIDHeader → k ≠ spaceIDHeader →
      k ≠ accountIDHeader →
      (addToRequestHeader (.targetPtr ⟨"o1", "s1", "a1"⟩) r).getHeader k =
        r.getHeader k) := by
  constructor
  · rfl
  · intro r k h1 h2 h3
    show Request.getHeader
      (((r.set orgIDHeader "o1").set spaceIDHeader "s1").set
        accountIDHeader "a1") k = _
    rw [getHeader_set_ne _ k accountIDHeader _ h3,
        getHeader_set_ne _ k spaceIDHeader _ h2,
        getHeader_set_ne _ k orgIDHeader _ h1]

/-- Witness for C7 at a concrete unrelated header name. -/
theorem addToRequestHeader_tenant_exact_witness :
    (addToRequestHeader (.targetPtr ⟨"o1", "s1", "a1"⟩)
        ⟨[("User-Agent", "ua")]⟩).getHeader "User-Agent" =
      (⟨[("User-Agent", "ua")]⟩ : Request).getHeader "User-Agent" :=
  addToRequestHeader_tenant_exact.2 ⟨[("User-Agent", "ua")]⟩ "User-Agent"
    (by decide) (by decide) (by decide)

/-- C8: an argument the type switch does not recognize adds zero headers:
the request comes back unchanged. -/
theorem addToRequestHeader_unrecognized (h : HeaderArg) (r : Request)
    (hr : recognizedHeader h = false) : addToRequestHeader h r = r := by
  cases h <;> simp_all [recognizedHeader, addToRequestHeader]

/-- Witness for C8 at the catch-all argument. -/
theorem addToRequestHeader_unrecognized_witness :
    recognizedHeader .other = false ∧
      addToRequestHeader .other ⟨[("A", "b")]⟩ = ⟨[("A", "b")]⟩ :=
  ⟨rfl, addToRequestHeader_unrecognized .other ⟨[("A", "b")]⟩ rfl⟩

/-- C9: by-value tenant and infrastructure-credential headers fall into
the unrecognized case of the pointer-only type switch: they add zero
headers, both through the projection itself and through the primitives'
header-attaching loop. -/
theorem addToRequestHeader_byValue (tv : ClusterTargetHeader)
    (sv : ClusterSoftlayerHeader) (r : Request) :
    addToRequestHeader (.targetVal tv) r = r ∧
    addToRequestHeader (.softlayerVal sv) r = r ∧
    addHeaders [.targetVal tv, .softlayerVal sv] r = r :=
  ⟨rfl, rfl, rfl⟩

/-- C10: path normalization is idempotent. -/
theorem cleanPath_idem (p : String) :
    cleanPath (cleanPath p) = cleanPath p :=
  congrArg String.mk (cleanPathList_idem p.toList)

end K8sClusterV1
